import Mathlib

/-!
Verification of the scheduled ingestion pipeline of `mse_auto_scraper_alerts.py`
(Malawi Stock Exchange scraper): fetch → normalize → deduplicate-persist → alert,
run once per day.

The shallow embedding below translates the pipeline's functions into pure Lean
functions.  External effects (page rendering, SQLite I/O, Excel file I/O, SMTP)
are represented by explicit inputs: an `Env` value carries the result of the
render step and failure flags for each I/O boundary, and the durable state
(SQLite table, Excel file) is threaded explicitly.

Library semantics embedded from their documented behaviour, as used by the code:
* `DataFrame.to_sql(..., if_exists="append")` appends the frame's rows (creating
  the table with the frame's columns when absent) and commits; inserting a frame
  with a column the existing table lacks is an error.
* The compaction `DELETE FROM t WHERE rowid NOT IN (SELECT MIN(rowid) ... GROUP
  BY "Ticker", "scrape_date")` keeps, for each (Ticker, scrape_date) group over
  the whole table, the row with the least rowid — i.e. the earliest inserted
  row of the group — and SQLite's GROUP BY puts all NULLs in one group.  Rowid
  order coincides with insertion order here (fresh rows always receive a rowid
  larger than every surviving rowid).
* `pandas.concat` takes the union of the two frames' columns (missing cells
  become NaN) and `drop_duplicates(subset=[...])` keeps the first row of each
  duplicate group, treating NaNs in the subset as equal.
-/

/-- A stored/scraped row: a finite mapping from column name to cell value,
as an association list.  A column absent from the list models SQL NULL or
pandas NaN in that row. -/
abbrev Row := List (String × String)

/-- Cell lookup in a row (`None` models NULL/NaN). -/
def getCell (r : Row) (c : String) : Option String :=
  (r.find? (fun p => p.1 == c)).map (fun p => p.2)

/-- The dedup key used by both compaction steps: the (Ticker, scrape_date)
pair of a row, with `none` for a missing cell (SQLite GROUP BY groups NULLs
together; pandas `drop_duplicates` treats NaNs in the subset as equal). -/
def rowKey (r : Row) : Option String × Option String :=
  (getCell r "Ticker", getCell r "scrape_date")

/-- Keep, in order, the first row of each `rowKey` group, skipping rows whose
key was already seen.  This is exactly `DELETE ... WHERE rowid NOT IN (SELECT
MIN(rowid) ... GROUP BY "Ticker", "scrape_date")` over a rowid-ordered list,
and also pandas `drop_duplicates(subset=["Ticker", "scrape_date"])`. -/
def dedupAux : List Row → List (Option String × Option String) → List Row
  | [], _ => []
  | r :: rs, seen =>
    if rowKey r ∈ seen then dedupAux rs seen
    else r :: dedupAux rs (rowKey r :: seen)

/-- Compaction: one surviving row per (Ticker, scrape_date) key, the earliest
inserted one (least rowid / first occurrence). -/
def dedupKeepFirst (l : List Row) : List Row := dedupAux l []

/-- A pandas-style data frame: column labels plus rows. -/
structure DataFrame where
  columns : List String
  rows : List Row
deriving Repr, DecidableEq

/-- The SQLite table `daily_prices`: `none` schema means the table does not
exist yet (`to_sql` will create it with the appended frame's columns). -/
structure Table where
  schema : Option (List String)
  rows : List Row
deriving Repr, DecidableEq

/-- A store that contains no table at all (fresh database file). -/
def emptyTable : Table := ⟨none, []⟩

/-- The compaction step of `save_to_sqlite`, run after the insert: executed
only when the just-appended frame has a column literally named "Ticker"; the
`DELETE` statement itself errors when the table lacks a "scrape_date" column
(the insert is already committed by `to_sql` at that point). -/
def sqliteDedupe (t : Table) (df : DataFrame) : Table × Except String Nat :=
  if "Ticker" ∈ df.columns then
    if "scrape_date" ∈ t.schema.getD [] then
      (⟨t.schema, dedupKeepFirst t.rows⟩, Except.ok df.rows.length)
    else (t, Except.error "no such column: scrape_date")
  else (t, Except.ok df.rows.length)

/-- `save_to_sqlite(df)`: append the frame's rows into `daily_prices` via
`to_sql(..., if_exists="append")`, then, if the frame has a "Ticker" column,
delete every row that is not the least-rowid row of its (Ticker, scrape_date)
group.  `ioFail` injects an I/O failure at the connection boundary (disk
full, lock contention): the store is then unchanged and the error propagates.
The returned count is `len(df)`, the figure the code logs and reports. -/
def save_to_sqlite (ioFail : Option String) (t : Table) (df : DataFrame) :
    Table × Except String Nat :=
  match ioFail with
  | some e => (t, Except.error e)
  | none =>
    match t.schema with
    | none => sqliteDedupe ⟨some df.columns, df.rows⟩ df
    | some cols =>
      if df.columns ⊆ cols then
        sqliteDedupe ⟨some cols, t.rows ++ df.rows⟩ df
      else (t, Except.error "table daily_prices has no column")

/-- Column union, as `pandas.concat` computes it: the first frame's columns
followed by the second frame's new columns. -/
def concatColumns (a b : List String) : List String :=
  a ++ b.filter (fun c => decide (c ∉ a))

/-- `save_to_excel(df)`: read the existing workbook (absence raises
`FileNotFoundError`, which is caught and makes the frame itself the output,
with no dedup), otherwise concatenate old and new rows, and — only when the
merged frame has a "Ticker" column — drop duplicate (Ticker, scrape_date)
rows keeping the first; `drop_duplicates` raises a `KeyError` when the merged
frame lacks "scrape_date".  `ioFail` injects any other I/O failure (e.g. a
read or write error), which propagates with the file unchanged. -/
def save_to_excel (ioFail : Option String) (file : Option DataFrame) (df : DataFrame) :
    Option DataFrame × Except String Unit :=
  match ioFail with
  | some e => (file, Except.error e)
  | none =>
    match file with
    | none => (some df, Except.ok ())
    | some old =>
      let cols := concatColumns old.columns df.columns
      let rows := old.rows ++ df.rows
      if "Ticker" ∈ cols then
        if "scrape_date" ∈ cols then
          (some ⟨cols, dedupKeepFirst rows⟩, Except.ok ())
        else (file, Except.error "KeyError: scrape_date")
      else (some ⟨cols, rows⟩, Except.ok ())

example :
    (save_to_sqlite none emptyTable
      ⟨["Ticker", "scrape_date"],
        [[("Ticker", "X"), ("scrape_date", "D")],
         [("Ticker", "X"), ("scrape_date", "D")]]⟩).1.rows.length = 1 := by decide

example :
    (save_to_sqlite none emptyTable
      ⟨["A"], [[("A", "1")], [("A", "1")]]⟩).1.rows.length = 2 := by decide

/-- Python `str.strip()` on a column label: remove surrounding whitespace. -/
def stripStr (s : String) : String :=
  ⟨((s.toList.dropWhile Char.isWhitespace).reverse.dropWhile Char.isWhitespace).reverse⟩

/-- The environment of one cycle: everything the outside world feeds the
pipeline.  `page` is the outcome of the render step (`driver.get` +
`page_source` + `soup.find("table")`): an error when the network/render step
fails, `ok none` when the page has no table element, `ok (some raw)` with the
parsed raw table otherwise.  `today` is `datetime.now().strftime("%Y-%m-%d")`,
`now` the timestamp interpolated into the success message, and the three
failure fields inject I/O failures at the SQLite, Excel and SMTP boundaries. -/
structure Env where
  page : Except String (Option DataFrame)
  today : String
  now : String
  sqliteFail : Option String
  excelFail : Option String
  smtpFail : Option String

/-- Normalization applied by `fetch_table` to the raw table: strip whitespace
from every column label (`df.columns = [c.strip() for c in df.columns]`,
which relabels each row's cells) and stamp each row with the current date
(`df["scrape_date"] = datetime.now().strftime("%Y-%m-%d")`). -/
def stampAndTrim (raw : DataFrame) (today : String) : DataFrame :=
  ⟨raw.columns.map stripStr ++ ["scrape_date"],
   raw.rows.map (fun r => r.map (fun p => (stripStr p.1, p.2)) ++ [("scrape_date", today)])⟩

/-- `fetch_table()`: propagate a render failure; raise
`ValueError("No table found on the page. The site may have changed.")` when
`soup.find("table")` comes back empty; otherwise normalize and date-stamp the
parsed table.  There is no retry: the page result is consulted exactly once. -/
def fetch_table (env : Env) : Except String DataFrame :=
  match env.page with
  | Except.error e => Except.error e
  | Except.ok none =>
    Except.error "No table found on the page. The site may have changed."
  | Except.ok (some raw) => Except.ok (stampAndTrim raw env.today)

/-- What became of one `send_email` call: delivered, or the SMTP failure was
caught by the `except` clause inside `send_email` and logged. -/
inductive SendResult where
  | sent
  | loggedError (e : String)
deriving Repr, DecidableEq

/-- One `send_email(subject, body)` invocation as recorded by the model. -/
structure Sent where
  subject : String
  body : String
  result : SendResult
deriving Repr, DecidableEq

/-- `send_email(subject, body)`: attempt SMTP delivery; any transport or auth
failure is caught inside the function and logged (`except Exception as e:
logger.error(...)`), so the call always returns to the caller. -/
def send_email (smtpFail : Option String) (subject body : String) : Sent :=
  match smtpFail with
  | none => ⟨subject, body, SendResult.sent⟩
  | some e => ⟨subject, body, SendResult.loggedError e⟩

/-- Subject line of the success alert. -/
def successSubject : String := "✅ MSE Data Update Successful"

/-- Subject line of the failure alert. -/
def failureSubject : String := "❌ MSE Scraper Failed"

/-- Body of the success alert: `f"✅ MSE daily update successful.\nRows
fetched: {len(df)}\nTime: {datetime.now()}"`. -/
def successBody (n : Nat) (now : String) : String :=
  "✅ MSE daily update successful.\nRows fetched: " ++ toString n ++ "\nTime: " ++ now

/-- Body of the failure alert: `f"❌ MSE scraper failed: {e}"`. -/
def failureBody (e : String) : String :=
  "❌ MSE scraper failed: " ++ e

/-- The durable state one cycle touches: the SQLite table and the Excel file
(`none` while the workbook does not exist yet). -/
structure World where
  db : Table
  excel : Option DataFrame
deriving Repr, DecidableEq

/-- The terminal status of one cycle, as logged by `daily_job`. -/
inductive Outcome where
  | success (rows : Nat)
  | failure (err : String)
deriving Repr, DecidableEq

/-- Everything one `daily_job()` call did: the durable state it left behind,
the `send_email` calls it made (in order), its terminal status, and the
exception, if any, that escaped past its own `try/except` boundary. -/
structure CycleResult where
  world : World
  sends : List Sent
  outcome : Outcome
  uncaught : Option String
deriving Repr, DecidableEq

/-- `daily_job()`: run `fetch_table`, `save_to_sqlite`, `save_to_excel` and
the success alert inside one `try:` block; any exception from the first three
lands in the `except Exception` clause, which logs it and sends the failure
alert.  The success message reports `len(df)`, the size of the fetched
frame. -/
def daily_job (env : Env) (w : World) : CycleResult :=
  match fetch_table env with
  | Except.error e =>
    ⟨w, [send_email env.smtpFail failureSubject (failureBody e)],
      Outcome.failure (failureBody e), none⟩
  | Except.ok df =>
    match save_to_sqlite env.sqliteFail w.db df with
    | (db', Except.error e) =>
      ⟨⟨db', w.excel⟩, [send_email env.smtpFail failureSubject (failureBody e)],
        Outcome.failure (failureBody e), none⟩
    | (db', Except.ok _) =>
      match save_to_excel env.excelFail w.excel df with
      | (xl', Except.error e) =>
        ⟨⟨db', xl'⟩, [send_email env.smtpFail failureSubject (failureBody e)],
          Outcome.failure (failureBody e), none⟩
      | (xl', Except.ok _) =>
        ⟨⟨db', xl'⟩,
          [send_email env.smtpFail successSubject (successBody df.rows.length env.now)],
          Outcome.success df.rows.length, none⟩

/-- Keys already consumed by a `dedupAux` pass over `l` starting from `s`. -/
def seenAfter : List Row → List (Option String × Option String) →
    List (Option String × Option String)
  | [], s => s
  | r :: rs, s => if rowKey r ∈ s then seenAfter rs s else seenAfter rs (rowKey r :: s)

theorem mem_of_mem_dedupAux (l : List Row) :
    ∀ seen r, r ∈ dedupAux l seen → r ∈ l := by
  induction l with
  | nil => intro seen r h; simp [dedupAux] at h
  | cons x xs ih =>
    intro seen r h
    by_cases hk : rowKey x ∈ seen
    · simp only [dedupAux, if_pos hk] at h
      exact List.mem_cons_of_mem _ (ih _ _ h)
    · simp only [dedupAux, if_neg hk] at h
      rcases List.mem_cons.mp h with h | h
      · exact h ▸ List.mem_cons_self _ _
      · exact List.mem_cons_of_mem _ (ih _ _ h)

theorem key_not_seen_of_mem_dedupAux (l : List Row) :
    ∀ seen r, r ∈ dedupAux l seen → rowKey r ∉ seen := by
  induction l with
  | nil => intro seen r h; simp [dedupAux] at h
  | cons x xs ih =>
    intro seen r h
    by_cases hk : rowKey x ∈ seen
    · simp only [dedupAux, if_pos hk] at h
      exact ih _ _ h
    · simp only [dedupAux, if_neg hk] at h
      rcases List.mem_cons.mp h with h | h
      · exact h ▸ hk
      · intro hs
        exact ih _ _ h (List.mem_cons_of_mem _ hs)

theorem dedupAux_pairwise (l : List Row) :
    ∀ seen, (dedupAux l seen).Pairwise (fun a b => rowKey a ≠ rowKey b) := by
  induction l with
  | nil => intro seen; simp [dedupAux]
  | cons x xs ih =>
    intro seen
    by_cases hk : rowKey x ∈ seen
    · simpa only [dedupAux, if_pos hk] using ih seen
    · simp only [dedupAux, if_neg hk]
      refine List.Pairwise.cons ?_ (ih _)
      intro b hb he
      exact key_not_seen_of_mem_dedupAux xs _ b hb (he ▸ List.mem_cons_self _ _)

theorem mem_keys_dedupAux (l : List Row) :
    ∀ seen k, k ∉ seen → (k ∈ (dedupAux l seen).map rowKey ↔ k ∈ l.map rowKey) := by
  induction l with
  | nil => intro seen k _; simp [dedupAux]
  | cons x xs ih =>
    intro seen k hk
    by_cases hx : rowKey x ∈ seen
    · simp only [dedupAux, if_pos hx, List.map_cons, List.mem_cons]
      rw [ih seen k hk]
      constructor
      · exact Or.inr
      · rintro (h | h)
        · exact absurd (h ▸ hx) hk
        · exact h
    · by_cases hkx : k = rowKey x
      · simp [dedupAux, if_neg hx, hkx]
      · have hk' : k ∉ rowKey x :: seen := by
          intro hmem
          rcases List.mem_cons.mp hmem with h | h
          · exact hkx h
          · exact hk h
        simp only [dedupAux, if_neg hx, List.map_cons, List.mem_cons]
        rw [ih _ k hk']

theorem mem_seenAfter (l : List Row) :
    ∀ s k, k ∈ seenAfter l s ↔ k ∈ s ∨ k ∈ l.map rowKey := by
  induction l with
  | nil => intro s k; simp [seenAfter]
  | cons x xs ih =>
    intro s k
    by_cases hx : rowKey x ∈ s
    · simp only [seenAfter, if_pos hx, List.map_cons, List.mem_cons]
      rw [ih s k]
      constructor
      · rintro (h | h)
        · exact Or.inl h
        · exact Or.inr (Or.inr h)
      · rintro (h | h | h)
        · exact Or.inl h
        · exact Or.inl (h ▸ hx)
        · exact Or.inr h
    · simp only [seenAfter, if_neg hx, List.map_cons, List.mem_cons]
      rw [ih _ k]
      simp only [List.mem_cons]
      constructor
      · rintro ((h | h) | h)
        · exact Or.inr (Or.inl h)
        · exact Or.inl h
        · exact Or.inr (Or.inr h)
      · rintro (h | h | h)
        · exact Or.inl (Or.inr h)
        · exact Or.inl (Or.inl h)
        · exact Or.inr h

theorem dedupAux_append (a : List Row) :
    ∀ b s, dedupAux (a ++ b) s = dedupAux a s ++ dedupAux b (seenAfter a s) := by
  induction a with
  | nil => intro b s; simp [dedupAux, seenAfter]
  | cons x xs ih =>
    intro b s
    by_cases hx : rowKey x ∈ s
    · simp only [List.cons_append, dedupAux, if_pos hx, seenAfter]
      exact ih b s
    · simp only [List.cons_append, dedupAux, if_neg hx, seenAfter, List.append_eq]
      rw [ih b _]

theorem dedupAux_eq_nil (l : List Row) :
    ∀ s, (∀ r ∈ l, rowKey r ∈ s) → dedupAux l s = [] := by
  induction l with
  | nil => intro s _; rfl
  | cons x xs ih =>
    intro s h
    have hx : rowKey x ∈ s := h x (List.mem_cons_self _ _)
    simp only [dedupAux, if_pos hx]
    exact ih s (fun r hr => h r (List.mem_cons_of_mem _ hr))

theorem dedupAux_eq_self (l : List Row) :
    ∀ s, l.Pairwise (fun a b => rowKey a ≠ rowKey b) → (∀ r ∈ l, rowKey r ∉ s) →
      dedupAux l s = l := by
  induction l with
  | nil => intro s _ _; rfl
  | cons x xs ih =>
    intro s hp hs
    have hx : rowKey x ∉ s := hs x (List.mem_cons_self _ _)
    simp only [dedupAux, if_neg hx]
    congr 1
    refine ih _ hp.of_cons ?_
    intro r hr hmem
    rcases List.mem_cons.mp hmem with he | he
    · exact List.rel_of_pairwise_cons hp hr he.symm
    · exact hs r (List.mem_cons_of_mem _ hr) he

theorem dedupKeepFirst_idem (l : List Row) :
    dedupKeepFirst (dedupKeepFirst l ++ l) = dedupKeepFirst l := by
  unfold dedupKeepFirst
  rw [dedupAux_append]
  have h1 : dedupAux (dedupAux l []) [] = dedupAux l [] :=
    dedupAux_eq_self _ _ (dedupAux_pairwise l []) (fun r _ => List.not_mem_nil _)
  have h2 : dedupAux l (seenAfter (dedupAux l []) []) = [] := by
    refine dedupAux_eq_nil _ _ ?_
    intro r hr
    rw [mem_seenAfter]
    exact Or.inr ((mem_keys_dedupAux l [] _ (List.not_mem_nil _)).mpr
      (List.mem_map_of_mem rowKey hr))
  rw [h1, h2, List.append_nil]

theorem rows_per_key_of_pairwise (l : List Row)
    (hp : l.Pairwise (fun a b => rowKey a ≠ rowKey b)) :
    ∀ k, (l.filter (fun r => decide (rowKey r = k))).length =
      if k ∈ l.map rowKey then 1 else 0 := by
  induction l with
  | nil => intro k; simp
  | cons x xs ih =>
    intro k
    by_cases hx : rowKey x = k
    · have hnone : xs.filter (fun r => decide (rowKey r = k)) = [] := by
        refine List.filter_eq_nil_iff.mpr ?_
        intro r hr
        simp only [decide_eq_true_eq]
        intro he
        exact List.rel_of_pairwise_cons hp hr (hx.trans he.symm)
      simp only [List.filter_cons, hx, decide_True, List.map_cons, List.mem_cons]
      simp [hnone]
    · simp only [List.filter_cons, List.map_cons, List.mem_cons]
      rw [if_neg (by simpa using hx), ih hp.of_cons k]
      have hkx : ¬ k = rowKey x := fun he => hx he.symm
      by_cases hk : k ∈ xs.map rowKey <;> simp [hk, hkx]

theorem dedupKeepFirst_keys_nodup (l : List Row) :
    ((dedupKeepFirst l).map rowKey).Nodup := by
  refine List.Pairwise.map _ ?_ (dedupAux_pairwise l [])
  intro a b hab
  exact hab

theorem dedupKeepFirst_keys_mem (l : List Row) (k : Option String × Option String) :
    k ∈ (dedupKeepFirst l).map rowKey ↔ k ∈ l.map rowKey :=
  mem_keys_dedupAux l [] k (List.not_mem_nil _)

theorem dedupKeepFirst_length (l : List Row) :
    (dedupKeepFirst l).length = (l.map rowKey).dedup.length := by
  have h1 : (dedupKeepFirst l).length = ((dedupKeepFirst l).map rowKey).length :=
    (List.length_map _ _).symm
  rw [h1, ← List.toFinset_card_of_nodup (dedupKeepFirst_keys_nodup l), ← List.card_toFinset]
  congr 1
  ext k
  simp only [List.mem_toFinset]
  exact dedupKeepFirst_keys_mem l k

theorem send_email_subject (f : Option String) (s b : String) :
    (send_email f s b).subject = s := by
  cases f <;> rfl

theorem send_email_body (f : Option String) (s b : String) :
    (send_email f s b).body = b := by
  cases f <;> rfl

theorem mem_concatColumns (c : String) (a b : List String) :
    c ∈ concatColumns a b ↔ c ∈ a ∨ c ∈ b := by
  unfold concatColumns
  simp only [List.mem_append, List.mem_filter, decide_eq_true_eq]
  by_cases hc : c ∈ a <;> simp [hc]

/-- The raw table of the spec's concrete scenario, as the page exposes it. -/
def scenarioRaw : DataFrame :=
  ⟨["Ticker", "Close"],
   [[("Ticker", "AIRTEL"), ("Close", "120.5")],
    [("Ticker", "NBS"), ("Close", "45.0")]]⟩

/-- A healthy environment on 2024-01-10 delivering `scenarioRaw`. -/
def scenarioEnv : Env :=
  ⟨Except.ok (some scenarioRaw), "2024-01-10", "2024-01-10 16:00:00", none, none, none⟩

/-- A fresh durable state: no SQLite table, no Excel file. -/
def emptyWorld : World := ⟨emptyTable, none⟩

/-- Minutes in a calendar day; all scheduler times are absolute minutes. -/
def minutesPerDay : Nat := 1440

/-- The `schedule` library's next-run computation for `every().day.at(T)`
(`T` a minute-of-day): tentatively tomorrow at `T`, pulled back to today at
`T` when the configured time-of-day is still ahead of `u`. -/
def nextOccurrence (T u : Nat) : Nat :=
  if u % minutesPerDay < T then u / minutesPerDay * minutesPerDay + T
  else (u / minutesPerDay + 1) * minutesPerDay + T

/-- The scheduler's only state, `next_run`, before the `(n+1)`-st poll of the
`while True: schedule.run_pending(); time.sleep(60)` loop started at minute
`s`: poll `n+1` happens at minute `s + n + 1`; when the pending job fired at
poll `n+1` (time `s + n + 1`), the library reschedules it for the following
day at time-of-day `T`. -/
def schedState (T s : Nat) : Nat → Nat
  | 0 => nextOccurrence T s
  | n + 1 =>
    if schedState T s n ≤ s + n + 1 then
      ((s + n + 1) / minutesPerDay + 1) * minutesPerDay + T
    else schedState T s n

/-- Whether `run_pending` fires the job at poll `n+1` (minute `s + n + 1`). -/
def firesAt (T s n : Nat) : Bool :=
  decide (schedState T s n ≤ s + n + 1)

/-- The minutes at which `run_daily` invokes `daily_job` during its first `N`
polls: once unconditionally at startup (minute `s`), then at every poll where
the scheduled job is pending. -/
def invocationTimes (T s N : Nat) : List Nat :=
  s :: (List.range N).filterMap
    (fun n => if firesAt T s n then some (s + n + 1) else none)

theorem nextOccurrence_gt (T u : Nat) : u < nextOccurrence T u := by
  unfold nextOccurrence minutesPerDay
  split <;> omega

theorem nextOccurrence_mod (T u : Nat) (hT : T < minutesPerDay) :
    nextOccurrence T u % minutesPerDay = T := by
  unfold nextOccurrence minutesPerDay at *
  split <;> omega

theorem nextOccurrence_le_of_mod (T u : Nat) (h : (u + 1) % minutesPerDay = T) :
    nextOccurrence T u ≤ u + 1 := by
  unfold nextOccurrence minutesPerDay at *
  split <;> omega

theorem nextOccurrence_succ (T u : Nat) (hT : T < minutesPerDay)
    (h : u + 1 < nextOccurrence T u) : nextOccurrence T (u + 1) = nextOccurrence T u := by
  unfold nextOccurrence minutesPerDay at *
  split at h <;> split <;> omega

theorem schedState_eq (T s : Nat) (hT : T < minutesPerDay) :
    ∀ n, schedState T s n = nextOccurrence T (s + n) := by
  intro n
  induction n with
  | zero => rfl
  | succ n ih =>
    simp only [schedState, ih]
    by_cases h : nextOccurrence T (s + n) ≤ s + n + 1
    · rw [if_pos h]
      have hgt := nextOccurrence_gt T (s + n)
      have heq : nextOccurrence T (s + n) = s + n + 1 := by omega
      have hmod : (s + n + 1) % minutesPerDay = T := by
        rw [← heq]
        exact nextOccurrence_mod T _ hT
      unfold nextOccurrence minutesPerDay at *
      rw [if_neg (by omega)]
      omega
    · rw [if_neg h]
      exact (nextOccurrence_succ T (s + n) hT (by omega)).symm

theorem firesAt_iff (T s : Nat) (hT : T < minutesPerDay) (n : Nat) :
    firesAt T s n = true ↔ (s + n + 1) % minutesPerDay = T := by
  unfold firesAt
  rw [decide_eq_true_eq, schedState_eq T s hT n]
  constructor
  · intro h
    have hgt := nextOccurrence_gt T (s + n)
    have heq : nextOccurrence T (s + n) = s + n + 1 := by omega
    rw [← heq]
    exact nextOccurrence_mod T _ hT
  · exact nextOccurrence_le_of_mod T (s + n)

theorem invocationTimes_succ (T s n : Nat) :
    invocationTimes T s (n + 1) =
      invocationTimes T s n ++ (if firesAt T s n then [s + n + 1] else []) := by
  unfold invocationTimes
  rw [List.range_succ, List.filterMap_append, List.cons_append]
  congr 1
  by_cases hf : firesAt T s n <;>
    simp [List.filterMap_cons, hf]

/-- The `run_daily` loop itself, threading the durable state through the
job invocations: `envs n` is the outside world at poll `n` (`envs 0` at
startup).  Returns the durable state and the invocation minutes after `N`
polls.  The loop never inspects a job's outcome — `daily_job` returns
normally on failure — so it runs forever regardless of failures. -/
def runDailyTrace (T s : Nat) (envs : Nat → Env) (w0 : World) : Nat → World × List Nat
  | 0 => ((daily_job (envs 0) w0).world, [s])
  | n + 1 =>
    let prev := runDailyTrace T s envs w0 n
    if firesAt T s n then
      ((daily_job (envs (n + 1)) prev.1).world, prev.2 ++ [s + n + 1])
    else prev

/-- C4: for every prior store state (duplicates from earlier runs included) and
every appended RecordSet (a frame carrying the instrument column "Ticker", per
the data model), once `save_to_sqlite` returns successfully the invariant "at
most one record per (Ticker, scrape_date) pair" holds over the entire table,
because the compaction `DELETE` groups over the whole table, not only the
newly written rows. -/
theorem save_to_sqlite_global_uniqueness (f : Option String) (t : Table) (df : DataFrame)
    (hT : "Ticker" ∈ df.columns) (t' : Table) (n : Nat)
    (h : save_to_sqlite f t df = (t', Except.ok n)) :
    t'.rows.Pairwise (fun a b => rowKey a ≠ rowKey b) := by
  have key : ∀ t0 : Table, sqliteDedupe t0 df = (t', Except.ok n) →
      t'.rows.Pairwise (fun a b => rowKey a ≠ rowKey b) := by
    intro t0 h0
    simp only [sqliteDedupe, if_pos hT] at h0
    split at h0
    · injection h0 with h1 h2
      rw [← h1]
      exact dedupAux_pairwise _ _
    · injection h0 with h1 h2
      exact Except.noConfusion h2
  cases f with
  | some e =>
    simp only [save_to_sqlite] at h
    injection h with h1 h2
    exact Except.noConfusion h2
  | none =>
    cases hsch : t.schema with
    | none =>
      simp only [save_to_sqlite, hsch] at h
      exact key _ h
    | some cols =>
      simp only [save_to_sqlite, hsch] at h
      split at h
      · exact key _ h
      · injection h with h1 h2
        exact Except.noConfusion h2

/-- C4 witness: a concrete successful append (a prior store that already holds
a duplicate (X, D1) pair, merged with a frame carrying "Ticker") satisfies the
hypotheses, and the resulting table has pairwise-distinct keys. -/
theorem save_to_sqlite_global_uniqueness_witness :
    "Ticker" ∈ (⟨["Ticker", "scrape_date"], [[("Ticker", "X"), ("scrape_date", "D1")]]⟩ :
        DataFrame).columns ∧
    (save_to_sqlite none
      ⟨some ["Ticker", "scrape_date"],
        [[("Ticker", "X"), ("scrape_date", "D1")], [("Ticker", "X"), ("scrape_date", "D1")]]⟩
      ⟨["Ticker", "scrape_date"], [[("Ticker", "X"), ("scrape_date", "D1")]]⟩ =
      (⟨some ["Ticker", "scrape_date"], [[("Ticker", "X"), ("scrape_date", "D1")]]⟩,
        Except.ok 1)) ∧
    (⟨some ["Ticker", "scrape_date"],
        [[("Ticker", "X"), ("scrape_date", "D1")]]⟩ : Table).rows.Pairwise
      (fun a b => rowKey a ≠ rowKey b) := by
  refine ⟨by decide, rfl, ?_⟩
  exact save_to_sqlite_global_uniqueness none
    ⟨some ["Ticker", "scrape_date"],
      [[("Ticker", "X"), ("scrape_date", "D1")], [("Ticker", "X"), ("scrape_date", "D1")]]⟩
    ⟨["Ticker", "scrape_date"], [[("Ticker", "X"), ("scrape_date", "D1")]]⟩
    (by decide) _ 1 rfl

/-- C9: the reported row count of a successful append equals the size of the
input RecordSet (`len(df)`), independent of how many rows the compaction
pruned; and in the spec's concrete scenario — the two-row AIRTEL/NBS frame of
2024-01-10 appended to an empty store — the store ends with 2 StoredRecords,
the append reports 2, and one Success notification carrying rows_written = 2
is sent. -/
theorem rows_written_eq_input_size :
    (∀ (f : Option String) (t : Table) (df : DataFrame) (t' : Table) (n : Nat),
      save_to_sqlite f t df = (t', Except.ok n) → n = df.rows.length) ∧
    (daily_job scenarioEnv emptyWorld).world.db.rows.length = 2 ∧
    (daily_job scenarioEnv emptyWorld).outcome = Outcome.success 2 ∧
    (daily_job scenarioEnv emptyWorld).sends =
      [⟨successSubject, successBody 2 "2024-01-10 16:00:00", SendResult.sent⟩] := by
  refine ⟨?_, rfl, rfl, rfl⟩
  intro f t df t' n h
  have key : ∀ t0 : Table, sqliteDedupe t0 df = (t', Except.ok n) → n = df.rows.length := by
    intro t0 h0
    unfold sqliteDedupe at h0
    split at h0
    · split at h0
      · injection h0 with h1 h2
        injection h2 with h3
        exact h3.symm
      · injection h0 with h1 h2
        exact Except.noConfusion h2
    · injection h0 with h1 h2
      injection h2 with h3
      exact h3.symm
  cases f with
  | some e =>
    simp only [save_to_sqlite] at h
    injection h with h1 h2
    exact Except.noConfusion h2
  | none =>
    cases hsch : t.schema with
    | none =>
      simp only [save_to_sqlite, hsch] at h
      exact key _ h
    | some cols =>
      simp only [save_to_sqlite, hsch] at h
      split at h
      · exact key _ h
      · injection h with h1 h2
        exact Except.noConfusion h2

/-- C9 witness: the general part applied to the concrete scenario append — the
two-row frame appended to the empty store returns exactly its input size. -/
theorem rows_written_eq_input_size_witness :
    save_to_sqlite none emptyTable (stampAndTrim scenarioRaw "2024-01-10") =
      ((save_to_sqlite none emptyTable (stampAndTrim scenarioRaw "2024-01-10")).1,
        Except.ok 2) ∧
    2 = (stampAndTrim scenarioRaw "2024-01-10").rows.length := by
  refine ⟨rfl, ?_⟩
  exact rows_written_eq_input_size.1 none emptyTable (stampAndTrim scenarioRaw "2024-01-10")
    _ 2 rfl

/-- C3: idempotent convergence — appending the same RecordSet (a frame with
the guaranteed instrument and date columns "Ticker" and "scrape_date") twice
to an empty store leaves exactly one StoredRecord per distinct
(Ticker, scrape_date) pair appearing in the frame, and the total row count
equals the number of distinct such pairs, however many duplicates one append
contains. -/
theorem append_twice_idempotent (df : DataFrame)
    (hT : "Ticker" ∈ df.columns) (hS : "scrape_date" ∈ df.columns) :
    (∀ k, ((save_to_sqlite none (save_to_sqlite none emptyTable df).1 df).1.rows.filter
        (fun r => decide (rowKey r = k))).length =
      if k ∈ df.rows.map rowKey then 1 else 0) ∧
    (save_to_sqlite none (save_to_sqlite none emptyTable df).1 df).1.rows.length =
      (df.rows.map rowKey).dedup.length := by
  have h1 : save_to_sqlite none emptyTable df =
      (⟨some df.columns, dedupKeepFirst df.rows⟩, Except.ok df.rows.length) := by
    simp [save_to_sqlite, emptyTable, sqliteDedupe, hT, hS]
  have hsub : df.columns ⊆ df.columns := fun a ha => ha
  have h2 : save_to_sqlite none (⟨some df.columns, dedupKeepFirst df.rows⟩ : Table) df =
      (⟨some df.columns, dedupKeepFirst (dedupKeepFirst df.rows ++ df.rows)⟩,
        Except.ok df.rows.length) := by
    simp [save_to_sqlite, sqliteDedupe, hT, hS, hsub]
  rw [h1]
  simp only [h2, dedupKeepFirst_idem]
  constructor
  · intro k
    rw [rows_per_key_of_pairwise (dedupKeepFirst df.rows) (dedupAux_pairwise df.rows []) k]
    exact if_congr (dedupKeepFirst_keys_mem df.rows k) rfl rfl
  · exact dedupKeepFirst_length df.rows

/-- C3 witness: a frame holding the same (X, D1) row twice, appended twice,
ends as a one-row store: one record for the single distinct pair. -/
theorem append_twice_idempotent_witness :
    "Ticker" ∈ (⟨["Ticker", "scrape_date"],
      [[("Ticker", "X"), ("scrape_date", "D1")],
       [("Ticker", "X"), ("scrape_date", "D1")]]⟩ : DataFrame).columns ∧
    "scrape_date" ∈ (⟨["Ticker", "scrape_date"],
      [[("Ticker", "X"), ("scrape_date", "D1")],
       [("Ticker", "X"), ("scrape_date", "D1")]]⟩ : DataFrame).columns ∧
    (((save_to_sqlite none
        (save_to_sqlite none emptyTable
          ⟨["Ticker", "scrape_date"],
            [[("Ticker", "X"), ("scrape_date", "D1")],
             [("Ticker", "X"), ("scrape_date", "D1")]]⟩).1
        ⟨["Ticker", "scrape_date"],
          [[("Ticker", "X"), ("scrape_date", "D1")],
           [("Ticker", "X"), ("scrape_date", "D1")]]⟩).1.rows.filter
      (fun r => decide (rowKey r = (some "X", some "D1")))).length = 1) := by
  refine ⟨by decide, by decide, ?_⟩
  have h := (append_twice_idempotent
    ⟨["Ticker", "scrape_date"],
      [[("Ticker", "X"), ("scrape_date", "D1")],
       [("Ticker", "X"), ("scrape_date", "D1")]]⟩ (by decide) (by decide)).1
    (some "X", some "D1")
  rw [h]
  decide

/-- RecordSet A of the cross-run scenario: instruments X and Y on date D1. -/
def dfA : DataFrame :=
  ⟨["Ticker", "scrape_date", "Close"],
   [[("Ticker", "X"), ("scrape_date", "D1"), ("Close", "100")],
    [("Ticker", "Y"), ("scrape_date", "D1"), ("Close", "10")]]⟩

/-- RecordSet B of the cross-run scenario: instruments X and Z on date D1,
with a different Close value for X. -/
def dfB : DataFrame :=
  ⟨["Ticker", "scrape_date", "Close"],
   [[("Ticker", "X"), ("scrape_date", "D1"), ("Close", "200")],
    [("Ticker", "Z"), ("scrape_date", "D1"), ("Close", "20")]]⟩

/-- The store after appending A then B to an empty store. -/
def storeAB : Table := (save_to_sqlite none (save_to_sqlite none emptyTable dfA).1 dfB).1

/-- C1 counterexample: appending A (X and Y on D1, X's Close = "100") and then
B (X and Z on D1, X's Close = "200") leaves three StoredRecords, but the
(X, D1) record carries A's Close value "100", not B's "200" as the claim's
last-write-wins policy predicts — the compaction keeps MIN(rowid), the
earliest write. -/
theorem cross_run_last_write_wins_false :
    storeAB.rows.length = 3 ∧
    (storeAB.rows.filter (fun r => decide (rowKey r = (some "X", some "D1")))).map
      (fun r => getCell r "Close") = [some "100"] ∧
    ¬ (storeAB.rows.filter (fun r => decide (rowKey r = (some "X", some "D1")))).map
      (fun r => getCell r "Close") = [some "200"] := by decide

/-- C1 amended: starting from an empty store, appending RecordSet A with
instruments {x, y} on date d and then RecordSet B with instruments {x, z} on
the same date leaves exactly three StoredRecords — (x, d) carrying A's field
values (the earliest write wins: compaction keeps the minimum rowid per
group), (y, d) carrying A's values, and (z, d) carrying B's values. -/
theorem cross_run_first_write_wins (x y z d ax ay bx bz : String)
    (hxy : x ≠ y) (hxz : x ≠ z) (hyz : y ≠ z) :
    (save_to_sqlite none
      (save_to_sqlite none emptyTable
        ⟨["Ticker", "scrape_date", "Close"],
         [[("Ticker", x), ("scrape_date", d), ("Close", ax)],
          [("Ticker", y), ("scrape_date", d), ("Close", ay)]]⟩).1
      ⟨["Ticker", "scrape_date", "Close"],
       [[("Ticker", x), ("scrape_date", d), ("Close", bx)],
        [("Ticker", z), ("scrape_date", d), ("Close", bz)]]⟩).1.rows =
    [[("Ticker", x), ("scrape_date", d), ("Close", ax)],
     [("Ticker", y), ("scrape_date", d), ("Close", ay)],
     [("Ticker", z), ("scrape_date", d), ("Close", bz)]] := by
  have kax : rowKey [("Ticker", x), ("scrape_date", d), ("Close", ax)] = (some x, some d) := rfl
  have kay : rowKey [("Ticker", y), ("scrape_date", d), ("Close", ay)] = (some y, some d) := rfl
  have kbx : rowKey [("Ticker", x), ("scrape_date", d), ("Close", bx)] = (some x, some d) := rfl
  have kbz : rowKey [("Ticker", z), ("scrape_date", d), ("Close", bz)] = (some z, some d) := rfl
  have hsub : (["Ticker", "scrape_date", "Close"] : List String) ⊆
      ["Ticker", "scrape_date", "Close"] := fun a ha => ha
  simp [save_to_sqlite, emptyTable, sqliteDedupe, dedupKeepFirst, dedupAux, hsub,
    kax, kay, kbx, kbz, Ne.symm hxy, Ne.symm hxz, Ne.symm hyz, hxy, hxz, hyz]

/-- C1 witness: the amended cross-run merge at the concrete instruments
X, Y, Z and date D1 — three records, with A's values surviving for (X, D1). -/
theorem cross_run_first_write_wins_witness :
    ("X" : String) ≠ "Y" ∧ ("X" : String) ≠ "Z" ∧ ("Y" : String) ≠ "Z" ∧
    (save_to_sqlite none
      (save_to_sqlite none emptyTable
        ⟨["Ticker", "scrape_date", "Close"],
         [[("Ticker", "X"), ("scrape_date", "D1"), ("Close", "100")],
          [("Ticker", "Y"), ("scrape_date", "D1"), ("Close", "10")]]⟩).1
      ⟨["Ticker", "scrape_date", "Close"],
       [[("Ticker", "X"), ("scrape_date", "D1"), ("Close", "200")],
        [("Ticker", "Z"), ("scrape_date", "D1"), ("Close", "20")]]⟩).1.rows =
    [[("Ticker", "X"), ("scrape_date", "D1"), ("Close", "100")],
     [("Ticker", "Y"), ("scrape_date", "D1"), ("Close", "10")],
     [("Ticker", "Z"), ("scrape_date", "D1"), ("Close", "20")]] := by
  refine ⟨by decide, by decide, by decide, ?_⟩
  exact cross_run_first_write_wins "X" "Y" "Z" "D1" "100" "10" "200" "20"
    (by decide) (by decide) (by decide)

/-- An existing Excel workbook that carries a "Ticker" column. -/
def oldExcel : DataFrame :=
  ⟨["Ticker", "scrape_date", "Close"],
   [[("Ticker", "A"), ("scrape_date", "D0"), ("Close", "1")]]⟩

/-- An input frame with no "Ticker" column and a duplicated
(instrument, scrape_date) pair (both keys are (NULL, D1)). -/
def noTickerFrame : DataFrame :=
  ⟨["Name", "scrape_date"],
   [[("Name", "B"), ("scrape_date", "D1")],
    [("Name", "B"), ("scrape_date", "D1")]]⟩

/-- C10 counterexample: in the flat-file export, an input with no "Ticker"
column is still deduplicated when the existing workbook supplies that column
— `pandas.concat` unions the columns, and the condition tests the merged
frame.  The export completes successfully, yet the duplicate pair is
collapsed (2 rows, not the 3 the claim's "leaves duplicate pairs in place"
predicts). -/
theorem dedup_condition_excel_counterexample :
    ¬ "Ticker" ∈ noTickerFrame.columns ∧
    (save_to_excel none (some oldExcel) noTickerFrame).2 = Except.ok () ∧
    ((save_to_excel none (some oldExcel) noTickerFrame).1.map
      (fun f => f.rows.length)) = some 2 ∧
    ¬ ((save_to_excel none (some oldExcel) noTickerFrame).1.map (fun f => f.rows)) =
      some (oldExcel.rows ++ noTickerFrame.rows) := by
  refine ⟨by decide, rfl, rfl, by decide⟩

/-- C10 amended: deduplication is conditional on a column literally named
"Ticker", but the two paths test different frames.  The durable store append
tests the input frame: without "Ticker" the rows are appended verbatim and
duplicates stay in place; with it (and "scrape_date" in the schema) the whole
table is compacted.  The flat-file export tests the merged frame (existing
workbook ∪ input), so an input lacking "Ticker" is still deduplicated
whenever the existing workbook has that column; only when neither side has it
are the rows kept verbatim, and when the workbook does not exist yet the
input is written verbatim with no dedup at all. -/
theorem dedup_conditional_on_ticker :
    (∀ (t : Table) (cols : List String) (df : DataFrame), t.schema = some cols →
      ¬ "Ticker" ∈ df.columns → df.columns ⊆ cols →
      save_to_sqlite none t df = (⟨some cols, t.rows ++ df.rows⟩, Except.ok df.rows.length)) ∧
    (∀ (t : Table) (cols : List String) (df : DataFrame), t.schema = some cols →
      "Ticker" ∈ df.columns → "scrape_date" ∈ cols → df.columns ⊆ cols →
      save_to_sqlite none t df =
        (⟨some cols, dedupKeepFirst (t.rows ++ df.rows)⟩, Except.ok df.rows.length)) ∧
    (∀ old df : DataFrame, "Ticker" ∈ old.columns → "scrape_date" ∈ old.columns →
      save_to_excel none (some old) df =
        (some ⟨concatColumns old.columns df.columns, dedupKeepFirst (old.rows ++ df.rows)⟩,
          Except.ok ())) ∧
    (∀ old df : DataFrame, ¬ "Ticker" ∈ old.columns → ¬ "Ticker" ∈ df.columns →
      save_to_excel none (some old) df =
        (some ⟨concatColumns old.columns df.columns, old.rows ++ df.rows⟩, Except.ok ())) ∧
    (∀ df : DataFrame, save_to_excel none none df = (some df, Except.ok ())) := by
  refine ⟨?_, ?_, ?_, ?_, ?_⟩
  · intro t cols df hsch hT hsub
    simp [save_to_sqlite, hsch, hsub, sqliteDedupe, hT]
  · intro t cols df hsch hT hS hsub
    simp [save_to_sqlite, hsch, hsub, sqliteDedupe, hT, hS]
  · intro old df hT hS
    have hT' : "Ticker" ∈ concatColumns old.columns df.columns :=
      (mem_concatColumns _ _ _).mpr (Or.inl hT)
    have hS' : "scrape_date" ∈ concatColumns old.columns df.columns :=
      (mem_concatColumns _ _ _).mpr (Or.inl hS)
    simp [save_to_excel, hT', hS']
  · intro old df hT hT'
    have hm : ¬ "Ticker" ∈ concatColumns old.columns df.columns := by
      rw [mem_concatColumns]
      rintro (h | h)
      · exact hT h
      · exact hT' h
    simp [save_to_excel, hm]
  · intro df
    rfl

/-- C10 amended witness: the store-side no-Ticker branch at a concrete table
and frame — the duplicate rows are appended and left in place. -/
theorem dedup_conditional_on_ticker_witness :
    (⟨some ["Name", "scrape_date"], [[("Name", "B"), ("scrape_date", "D1")]]⟩ :
      Table).schema = some ["Name", "scrape_date"] ∧
    ¬ "Ticker" ∈ noTickerFrame.columns ∧
    noTickerFrame.columns ⊆ ["Name", "scrape_date"] ∧
    save_to_sqlite none
      ⟨some ["Name", "scrape_date"], [[("Name", "B"), ("scrape_date", "D1")]]⟩
      noTickerFrame =
      (⟨some ["Name", "scrape_date"],
        [("Name", "B"), ("scrape_date", "D1")] :: noTickerFrame.rows⟩, Except.ok 2) := by
  refine ⟨rfl, by decide, by decide, ?_⟩
  exact dedup_conditional_on_ticker.1
    ⟨some ["Name", "scrape_date"], [[("Name", "B"), ("scrape_date", "D1")]]⟩
    ["Name", "scrape_date"] noTickerFrame rfl (by decide) (by decide)

/-- C2: one ingestion cycle terminates normally — no exception escapes
`daily_job`'s own try/except boundary for any input — and when collection
fails, the durable store and the Excel file are left exactly as they were
(the storing steps are skipped), and exactly one Failure notification is
sent. -/
theorem daily_job_failure_containment (env : Env) (w : World) :
    (daily_job env w).uncaught = none ∧
    (∀ e, fetch_table env = Except.error e →
      (daily_job env w).world = w ∧
      (daily_job env w).sends = [send_email env.smtpFail failureSubject (failureBody e)] ∧
      (daily_job env w).outcome = Outcome.failure (failureBody e)) := by
  constructor
  · cases hf : fetch_table env with
    | error e => simp [daily_job, hf]
    | ok df =>
      rcases hs : save_to_sqlite env.sqliteFail w.db df with ⟨db', r⟩
      cases r with
      | error e => simp [daily_job, hf, hs]
      | ok n =>
        rcases hx : save_to_excel env.excelFail w.excel df with ⟨xl', rx⟩
        cases rx with
        | error e => simp [daily_job, hf, hs, hx]
        | ok u => simp [daily_job, hf, hs, hx]
  · intro e he
    simp [daily_job, he]

/-- C2 witness: a concrete cycle whose render step fails leaves the fresh
world untouched and sends a single failure alert. -/
theorem daily_job_failure_containment_witness :
    fetch_table ⟨Except.error "net down", "2024-01-10", "t", none, none, none⟩ =
      Except.error "net down" ∧
    (daily_job ⟨Except.error "net down", "2024-01-10", "t", none, none, none⟩
      emptyWorld).world = emptyWorld ∧
    (daily_job ⟨Except.error "net down", "2024-01-10", "t", none, none, none⟩
      emptyWorld).sends =
      [send_email none failureSubject (failureBody "net down")] ∧
    (daily_job ⟨Except.error "net down", "2024-01-10", "t", none, none, none⟩
      emptyWorld).outcome = Outcome.failure (failureBody "net down") := by
  refine ⟨rfl, ?_⟩
  exact (daily_job_failure_containment
    ⟨Except.error "net down", "2024-01-10", "t", none, none, none⟩ emptyWorld).2
    "net down" rfl

/-- C5: when collection succeeds but the SQLite storage step fails, the cycle
sends exactly one Failure notification and never a Success one, and its
recorded outcome is the failure. -/
theorem storage_failure_ordering (env : Env) (w : World) (df : DataFrame) (e : String)
    (hf : fetch_table env = Except.ok df)
    (hs : (save_to_sqlite env.sqliteFail w.db df).2 = Except.error e) :
    (daily_job env w).sends = [send_email env.smtpFail failureSubject (failureBody e)] ∧
    (daily_job env w).outcome = Outcome.failure (failureBody e) ∧
    ∀ sent ∈ (daily_job env w).sends, ¬ sent.subject = successSubject := by
  rcases hpair : save_to_sqlite env.sqliteFail w.db df with ⟨db', r⟩
  rw [hpair] at hs
  simp only at hs
  subst hs
  refine ⟨by simp [daily_job, hf, hpair], by simp [daily_job, hf, hpair], ?_⟩
  intro sent hsent
  simp only [daily_job, hf, hpair] at hsent
  simp only [List.mem_singleton] at hsent
  subst hsent
  rw [send_email_subject]
  decide

/-- C5 witness: a cycle with a healthy page but a failing SQLite connection
sends only the failure alert. -/
theorem storage_failure_ordering_witness :
    fetch_table ⟨Except.ok (some scenarioRaw), "2024-01-10", "t", some "disk full",
      none, none⟩ = Except.ok (stampAndTrim scenarioRaw "2024-01-10") ∧
    (daily_job ⟨Except.ok (some scenarioRaw), "2024-01-10", "t", some "disk full",
      none, none⟩ emptyWorld).sends =
      [send_email none failureSubject (failureBody "disk full")] ∧
    (daily_job ⟨Except.ok (some scenarioRaw), "2024-01-10", "t", some "disk full",
      none, none⟩ emptyWorld).outcome = Outcome.failure (failureBody "disk full") := by
  have h := storage_failure_ordering
    ⟨Except.ok (some scenarioRaw), "2024-01-10", "t", some "disk full", none, none⟩
    emptyWorld (stampAndTrim scenarioRaw "2024-01-10") "disk full" rfl rfl
  exact ⟨rfl, h.1, h.2.1⟩

/-- C6: a delivery failure inside the notifier is caught there — the cycle's
durable result, terminal outcome, and the subjects/bodies of the attempted
notifications are identical whatever the SMTP transport does, and no
exception surfaces past the job boundary. -/
theorem notifier_isolation (env : Env) (w : World) (f : Option String) :
    (daily_job { env with smtpFail := f } w).world = (daily_job env w).world ∧
    (daily_job { env with smtpFail := f } w).outcome = (daily_job env w).outcome ∧
    (daily_job { env with smtpFail := f } w).uncaught = none ∧
    (daily_job { env with smtpFail := f } w).sends.map (fun s => (s.subject, s.body)) =
      (daily_job env w).sends.map (fun s => (s.subject, s.body)) := by
  have hfe : fetch_table { env with smtpFail := f } = fetch_table env := rfl
  cases hf : fetch_table env with
  | error e =>
    simp [daily_job, hfe, hf, send_email_subject, send_email_body]
  | ok df =>
    rcases hs : save_to_sqlite env.sqliteFail w.db df with ⟨db', r⟩
    cases r with
    | error e =>
      simp [daily_job, hfe, hf, hs, send_email_subject, send_email_body]
    | ok n =>
      rcases hx : save_to_excel env.excelFail w.excel df with ⟨xl', rx⟩
      cases rx with
      | error e =>
        simp [daily_job, hfe, hf, hs, hx, send_email_subject, send_email_body]
      | ok u =>
        simp [daily_job, hfe, hf, hs, hx, send_email_subject, send_email_body]

/-- C8: when the expected table structure is absent from the fetched page
snapshot, `fetch_table` fails with the hard "No table found" error — it never
returns a RecordSet, empty or otherwise, and makes no second attempt. -/
theorem fetch_table_no_table_failure (env : Env) (h : env.page = Except.ok none) :
    fetch_table env =
      Except.error "No table found on the page. The site may have changed." ∧
    ∀ df, ¬ fetch_table env = Except.ok df := by
  constructor
  · simp [fetch_table, h]
  · intro df hdf
    simp [fetch_table, h] at hdf

/-- C8 witness: a concrete page snapshot with no table element makes
`fetch_table` fail hard. -/
theorem fetch_table_no_table_failure_witness :
    (⟨Except.ok none, "2024-01-10", "t", none, none, none⟩ : Env).page =
      Except.ok none ∧
    fetch_table ⟨Except.ok none, "2024-01-10", "t", none, none, none⟩ =
      Except.error "No table found on the page. The site may have changed." ∧
    ¬ fetch_table ⟨Except.ok none, "2024-01-10", "t", none, none, none⟩ =
      Except.ok scenarioRaw := by
  have h := fetch_table_no_table_failure
    ⟨Except.ok none, "2024-01-10", "t", none, none, none⟩ rfl
  exact ⟨rfl, h.1, h.2 scenarioRaw⟩

/-- C7: scheduling liveness of `run_daily` with trigger time-of-day `T`
(minutes) and loop start `s` before `T` on the start day.  (i) The job is
invoked once immediately at startup, minute `s`.  (ii) The scheduler fires at
poll `n+1` exactly when that poll's minute has time-of-day `T` — i.e. once at
the first occurrence of `T` after start and then exactly once per calendar
day, forever.  (iii) No two scheduled firings fall on the same calendar day.
(iv) The first scheduled firing is exactly the first occurrence of `T` at or
after start.  (v) The loop's invocation schedule is the same whatever the
environments (and hence the job outcomes — failures are absorbed) are: the
loop never terminates or skips on a Job Runner failure. -/
theorem run_daily_scheduling (T s : Nat) (hT : T < minutesPerDay)
    (hs : s % minutesPerDay < T) :
    (∀ N, (invocationTimes T s N).head? = some s) ∧
    (∀ n, firesAt T s n = true ↔ (s + n + 1) % minutesPerDay = T) ∧
    (∀ m n, firesAt T s m = true → firesAt T s n = true →
      (s + m + 1) / minutesPerDay = (s + n + 1) / minutesPerDay → m = n) ∧
    (∃ n, s + n + 1 = nextOccurrence T s ∧ firesAt T s n = true ∧
      ∀ m, m < n → ¬ firesAt T s m = true) ∧
    (∀ (envs : Nat → Env) (w0 : World) (N : Nat),
      (runDailyTrace T s envs w0 N).2 = invocationTimes T s N) := by
  have hchar := firesAt_iff T s hT
  refine ⟨fun N => rfl, hchar, ?_, ?_, ?_⟩
  · intro m n hm hn hd
    rw [hchar] at hm hn
    unfold minutesPerDay at *
    omega
  · refine ⟨T - s % minutesPerDay - 1, ?_, ?_, ?_⟩
    · unfold nextOccurrence minutesPerDay at *
      rw [if_pos hs]
      omega
    · rw [hchar]
      unfold minutesPerDay at *
      omega
    · intro m hm
      rw [hchar]
      unfold minutesPerDay at *
      omega
  · intro envs w0 N
    induction N with
    | zero => rfl
    | succ n ih =>
      rw [invocationTimes_succ]
      simp only [runDailyTrace]
      by_cases hf : firesAt T s n
      · simp [hf, ih]
      · simp [hf, ih]

/-- C7 witness: trigger 16:00 (minute 960 of the day), start at minute 100 of
day 0 — the startup invocation is at minute 100 and the scheduler fires at
poll 860, minute 960, the first occurrence of the trigger time. -/
theorem run_daily_scheduling_witness :
    960 < minutesPerDay ∧ 100 % minutesPerDay < 960 ∧
    (invocationTimes 960 100 0).head? = some 100 ∧
    (firesAt 960 100 859 = true ↔ (100 + 859 + 1) % minutesPerDay = 960) := by
  have h := run_daily_scheduling 960 100 (by decide) (by decide)
  exact ⟨by decide, by decide, h.1 0, h.2.1 859⟩
